import Mathlib

/-!
Verification of the batch OGG re-encode scripts (`fix_ogg_files.py` and
`fix_ogg_xray.py`) against their natural-language specification.

The scripts are modelled shallowly:

* the filesystem is an association list from path strings to byte lists;
* the external tools (ffmpeg, oggenc) are oracles: a record giving the exit
  status the subprocess reports and the bytes (if any) it writes to its
  output path;
* fallible filesystem operations (unlink, copy, rename) are given explicit
  fault flags; a raised fault transfers control to the Python `except`
  handler of the modelled function;
* `Path.rename` and `Path.unlink` are modelled as atomic: they either
  perform their whole effect or raise without effect;
* the backup `shutil.copy2` calls are modelled as raising at the open of the
  destination (no effect), while the two-stage variant's replace
  `shutil.copy2(temp_ogg, input_path)` is modelled faithfully to
  `shutil.copyfile`: opening the destination truncates it, the source is
  then written sequentially, so an interrupted copy leaves a (possibly
  empty) prefix of the source bytes at the destination.

`fix_ogg_xray.py` does its intermediate work inside a
`tempfile.TemporaryDirectory`, which lives outside the processed tree and is
removed on every exit path by the context manager; those intermediate files
are therefore modelled as plain values, not filesystem entries.
-/

/-- File contents: a list of bytes. -/
abbrev Bytes := List Nat

/-- A filesystem: an association list from paths to contents.
Earlier entries shadow later ones; `fsSet`/`fsDel` keep keys unique. -/
abbrev FS := List (String × Bytes)

/-- Look up the contents stored at path `p`. -/
def fsGet : FS → String → Option Bytes
  | [], _ => none
  | (k, b) :: rest, p => if k = p then some b else fsGet rest p

/-- Remove the entry at path `p` (no-op when absent). -/
def fsDel : FS → String → FS
  | [], _ => []
  | (k, b) :: rest, p => if k = p then fsDel rest p else (k, b) :: fsDel rest p

/-- Create or overwrite the entry at path `p`. -/
def fsSet (fs : FS) (p : String) (b : Bytes) : FS := (p, b) :: fsDel fs p

/-- `Path.exists()`. -/
def fsExists (fs : FS) (p : String) : Bool := (fsGet fs p).isSome

/-- Python `if path.exists(): path.unlink()`. -/
def unlinkIfExists (fs : FS) (p : String) : FS :=
  if fsExists fs p then fsDel fs p else fs

/-- On a reversed character list: the final path component, reversed
(characters up to the first `/`). -/
def takeUntilSlash : List Char → List Char
  | [] => []
  | c :: cs => if c = '/' then [] else c :: takeUntilSlash cs

/-- On a reversed character list: everything from the first `/` on
(the reversed directory part, separator included). -/
def dropAfterSlash : List Char → List Char
  | [] => []
  | c :: cs => if c = '/' then c :: cs else dropAfterSlash cs

/-- Characters of the final component of a path (`Path.name`). -/
def nameChars (p : String) : List Char := (takeUntilSlash p.toList.reverse).reverse

/-- On a reversed name: drop up to and including the first `.`; `none` when
there is no dot.  The returned list is the reversed stem for `rfind('.')`. -/
def rfindDotRest : List Char → Option (List Char)
  | [] => none
  | c :: cs => if c = '.' then some cs else rfindDotRest cs

/-- Python `PurePath.with_suffix`: replace the extension of the final
component (the part from the last dot, provided that dot is neither the
first nor the last character of the name) by `suf`; when the name has no
extension, append `suf`. -/
def withSuffix (p suf : String) : String :=
  let cs := p.toList
  let nm := (takeUntilSlash cs.reverse).reverse
  let dir := (dropAfterSlash cs.reverse).reverse
  match rfindDotRest nm.reverse with
  | some rstem =>
      if 0 < rstem.length ∧ rstem.length < nm.length - 1 then
        String.mk (dir ++ rstem.reverse ++ suf.toList)
      else
        String.mk (dir ++ nm ++ suf.toList)
  | none => String.mk (dir ++ nm ++ suf.toList)

/-- `input_path.with_suffix('.tmp.ogg')`: the temporary sibling output. -/
def tempPath (p : String) : String := withSuffix p ".tmp.ogg"

/-- `input_path.with_suffix('.ogg.bak')`: the sibling backup path. -/
def backupPath (p : String) : String := withSuffix p ".ogg.bak"

/-- `str.endswith`, over the underlying character lists. -/
def strEnds (s t : String) : Bool := t.toList.isSuffixOf s.toList

/-- Python `needle in hay`: `needle` occurs as a contiguous substring. -/
def hasSub (hay needle : List Char) : Bool :=
  match hay with
  | [] => needle.isEmpty
  | _ :: t => needle.isPrefixOf hay || hasSub t needle

/-- Whether a final component matches the glob pattern `*.ogg`. -/
def matchGlobOgg (nm : List Char) : Bool := (String.toList ".ogg").isSuffixOf nm

/-- `directory.glob("*.ogg")` / `directory.rglob("*.ogg")` over a listing of
the paths of all files under the directory, relative to it: recursive mode
keeps every file whose name matches, single-level mode additionally requires
the file to sit directly in the directory (no separator in its relative
path). -/
def globOgg (listing : List String) (recursive : Bool) : List String :=
  if recursive then
    listing.filter (fun p => matchGlobOgg (nameChars p))
  else
    listing.filter (fun p => !(p.toList.contains '/') && matchGlobOgg (nameChars p))

/-- `fix_ogg_files.py` line 97:
`[f for f in ogg_files if not f.name.endswith('.bak') and '.tmp.' not in f.name]`. -/
def filterFiles (l : List String) : List String :=
  l.filter (fun f =>
    !(String.toList ".bak").isSuffixOf (nameChars f) &&
    !hasSub (nameChars f) (String.toList ".tmp."))

/-- `str(Path(root) / p)`: the path as the two scripts print and test it. -/
def joinPath (root p : String) : String :=
  if root = "." then p else root ++ "/" ++ p

/-- `fix_ogg_xray.py` line 114: `[f for f in ogg_files if '.bak' not in str(f)]`.
`str(f)` is the path joined with the target directory. -/
def filterXray (root : String) (l : List String) : List String :=
  l.filter (fun f => !hasSub (joinPath root f).toList (String.toList ".bak"))

/-- Target-set discovery of `fix_ogg_files.py` (glob then filter). -/
def discoverFiles (listing : List String) (recursive : Bool) : List String :=
  filterFiles (globOgg listing recursive)

/-- Target-set discovery of `fix_ogg_xray.py` (glob then filter). -/
def discoverXray (root : String) (listing : List String) (recursive : Bool) : List String :=
  filterXray root (globOgg listing recursive)

/-- One ffmpeg invocation as `fix_ogg_files.py` observes it: the exit status
of the subprocess, and the bytes it wrote to the requested output path
(`none` when it produced no output file). -/
structure FfmpegRun where
  returncode : Int
  output : Option Bytes

/-- Fault injection for the fallible filesystem calls of
`fix_ogg_files.reencode_ogg`; a `true` flag makes that call raise. -/
structure Faults where
  bakUnlink : Bool
  bakCopy : Bool
  inputUnlink : Bool
  tempRename : Bool

/-- The fault-free execution. -/
def noFaults : Faults := ⟨false, false, false, false⟩

/-- The `except` handler of `fix_ogg_files.reencode_ogg` (lines 76-80):
delete the temporary output when present and report failure. -/
def cleanupFail (fs : FS) (temp : String) : FS × Bool :=
  (unlinkIfExists fs temp, false)

/-- `fix_ogg_files.reencode_ogg` (lines 30-80).  Steps, in source order:
existence check; ffmpeg writes (or not) the temporary sibling; non-zero exit
deletes the temporary and fails; backup (refresh an existing one, then copy
the original's current bytes); `input_path.unlink()`;
`temp_path.rename(input_path)` (raises when the temporary is absent).  Any
raise reaches `cleanupFail`. -/
def reencode_ogg (fs : FS) (input : String) (backup : Bool) (run : FfmpegRun)
    (flt : Faults) : FS × Bool :=
  if fsExists fs input = false then (fs, false)
  else
    let temp := tempPath input
    let bak := backupPath input
    let fs1 := match run.output with
      | some b => fsSet fs temp b
      | none => fs
    if run.returncode ≠ 0 then
      (unlinkIfExists fs1 temp, false)
    else if backup ∧ (fsExists fs1 bak ∧ flt.bakUnlink) then
      cleanupFail fs1 temp
    else
      let fs2 := if backup ∧ fsExists fs1 bak then fsDel fs1 bak else fs1
      if backup ∧ flt.bakCopy then
        cleanupFail fs2 temp
      else
        let fs3 := if backup then fsSet fs2 bak ((fsGet fs2 input).getD []) else fs2
        if flt.inputUnlink then
          cleanupFail fs3 temp
        else
          let fs4 := fsDel fs3 input
          if flt.tempRename then
            cleanupFail fs4 temp
          else
            match fsGet fs4 temp with
            | some tb => (fsDel (fsSet fs4 input tb) temp, true)
            | none => cleanupFail fs4 temp

/-- How one `shutil.copy2` call over an existing destination can end.
`copyfile` opens the destination with mode `wb` — truncating it — and then
streams the source; so it either completes, raises before the destination
was opened (destination untouched), or raises mid-copy after `k` bytes of
the source were written over the truncated destination. -/
inductive CopyOutcome where
  | ok : CopyOutcome
  | failOpen : CopyOutcome
  | failAfter : Nat → CopyOutcome

/-- One execution of the xray pipeline's external tools and fallible copies,
as `fix_ogg_xray.reencode_ogg` observes them.  The exit statuses are
recorded because the subprocesses report them, but the source never reads
them: only `wav_path.exists()` / `temp_ogg.exists()` are checked.
`bakCopyFault` makes the backup copy raise at the open of the (not yet
existing) backup path; `replaceCopy` is the outcome of the replace copy
over the existing original. -/
structure XrayRun where
  ffmpegExit : Int
  wavOut : Option Bytes
  oggencExit : Int
  oggOut : Option Bytes
  bakCopyFault : Bool
  replaceCopy : CopyOutcome

/-- `fix_ogg_xray.reencode_ogg` (lines 51-99).  The wav and intermediate ogg
live in the `TemporaryDirectory`, outside the modelled tree, and vanish on
every path.  A backup is copied only when none exists, and a raise there is
swallowed (`except: pass`).  The replace step is `shutil.copy2(temp_ogg,
input_path)`: a completed copy stores the new bytes, a raise reaches the
outer handler, which only reports failure — but a raise mid-copy has
already truncated the original and written a prefix of the new bytes over
it (see `CopyOutcome`). -/
def reencode_ogg_xray (fs : FS) (input : String) (backup : Bool)
    (run : XrayRun) : FS × Bool :=
  if fsExists fs input = false then (fs, false)
  else
    match run.wavOut with
    | none => (fs, false)
    | some _ =>
      match run.oggOut with
      | none => (fs, false)
      | some newBytes =>
        let bak := backupPath input
        let fs1 :=
          if backup then
            if fsExists fs bak then fs
            else if run.bakCopyFault then fs
            else fsSet fs bak ((fsGet fs input).getD [])
          else fs
        match run.replaceCopy with
        | CopyOutcome.ok => (fsSet fs1 input newBytes, true)
        | CopyOutcome.failOpen => (fs1, false)
        | CopyOutcome.failAfter k => (fsSet fs1 input (newBytes.take k), false)

/-- The per-file loop of `fix_ogg_files.process_directory` (lines 106-117):
sequential, one `reencode_ogg` call per discovered file, counting successes
and failures. -/
def processLoopFiles (fs : FS) (files : List String) (oracle : String → FfmpegRun)
    (flt : String → Faults) : FS × Nat × Nat :=
  match files with
  | [] => (fs, 0, 0)
  | f :: rest =>
    let r := reencode_ogg fs f true (oracle f) (flt f)
    let r2 := processLoopFiles r.1 rest oracle flt
    if r.2 then (r2.1, r2.2.1 + 1, r2.2.2) else (r2.1, r2.2.1, r2.2.2 + 1)

/-- The per-file loop of `fix_ogg_xray.process_directory` (lines 126-134). -/
def processLoopXray (fs : FS) (files : List String) (oracle : String → XrayRun) :
    FS × Nat × Nat :=
  match files with
  | [] => (fs, 0, 0)
  | f :: rest =>
    let r := reencode_ogg_xray fs f true (oracle f)
    let r2 := processLoopXray r.1 rest oracle
    if r.2 then (r2.1, r2.2.1 + 1, r2.2.2) else (r2.1, r2.2.1, r2.2.2 + 1)

/-- `fix_ogg_files.process_directory` (lines 82-124): a missing directory
prints and returns with nothing processed (`none`); otherwise discovery runs
and the loop reports (found, success, failed).  (The empty-target early
return only skips printing; the loop over an empty list already does
nothing.) -/
def process_directory (dirExists : Bool) (fs : FS) (listing : List String)
    (recursive : Bool) (oracle : String → FfmpegRun) (flt : String → Faults) :
    FS × Option (Nat × Nat × Nat) :=
  if dirExists = false then (fs, none)
  else
    let files := discoverFiles listing recursive
    let r := processLoopFiles fs files oracle flt
    (r.1, some (files.length, r.2.1, r.2.2))

/-- `fix_ogg_xray.process_directory` (lines 101-140). -/
def process_directory_xray (dirExists : Bool) (fs : FS) (root : String)
    (listing : List String) (recursive : Bool) (oracle : String → XrayRun) :
    FS × Option (Nat × Nat × Nat) :=
  if dirExists = false then (fs, none)
  else
    let files := discoverXray root listing recursive
    let r := processLoopXray fs files oracle
    (r.1, some (files.length, r.2.1, r.2.2))

/-- `fix_ogg_files.main` (lines 126-152): `sys.exit(1)` when ffmpeg is
unavailable, otherwise run `process_directory` and fall off the end of the
script (exit status 0).  Returns the final filesystem and the exit code. -/
def main_files (ffmpegOk : Bool) (dirExists : Bool) (fs : FS)
    (listing : List String) (recursive : Bool) (oracle : String → FfmpegRun)
    (flt : String → Faults) : FS × Nat :=
  if ffmpegOk = false then (fs, 1)
  else
    let r := process_directory dirExists fs listing recursive oracle flt
    (r.1, 0)

/-- `fix_ogg_xray.main` (lines 142-173): `sys.exit(1)` when ffmpeg or oggenc
is unavailable, otherwise run `process_directory` and exit 0. -/
def main_xray (hasFfmpeg hasOggenc : Bool) (dirExists : Bool) (fs : FS)
    (root : String) (listing : List String) (recursive : Bool)
    (oracle : String → XrayRun) : FS × Nat :=
  if hasFfmpeg = false ∨ hasOggenc = false then (fs, 1)
  else
    let r := process_directory_xray dirExists fs root listing recursive oracle
    (r.1, 0)

/-! ### Lemmas about the filesystem model -/

theorem fsGet_fsDel (fs : FS) (p q : String) :
    fsGet (fsDel fs p) q = if p = q then none else fsGet fs q := by
  induction fs with
  | nil => simp [fsDel, fsGet]
  | cons e rest ih =>
    obtain ⟨k, b⟩ := e
    simp only [fsDel, fsGet]
    by_cases hkp : k = p <;> by_cases hpq : p = q <;> simp_all [fsGet]

theorem fsGet_fsSet (fs : FS) (p q : String) (b : Bytes) :
    fsGet (fsSet fs p b) q = if p = q then some b else fsGet fs q := by
  simp only [fsSet, fsGet]
  by_cases hpq : p = q <;> simp [hpq, fsGet_fsDel]

theorem fsGet_unlinkIfExists (fs : FS) (p q : String) :
    fsGet (unlinkIfExists fs p) q = if p = q then none else fsGet fs q := by
  unfold unlinkIfExists
  by_cases hex : fsExists fs p
  · simp [hex, fsGet_fsDel]
  · have hnone : fsGet fs p = none := by
      cases h : fsGet fs p with
      | none => rfl
      | some b => exact absurd (by simp [fsExists, h]) hex
    by_cases hpq : p = q <;> simp_all

theorem fsExists_true_iff (fs : FS) (p : String) :
    fsExists fs p = true ↔ ∃ b, fsGet fs p = some b := by
  simp [fsExists, Option.isSome_iff_exists]

/-! ### Lemmas about path and string helpers -/

theorem takeUntilSlash_eq_append (cs : List Char) :
    ∃ t, takeUntilSlash cs ++ t = cs := by
  induction cs with
  | nil => exact ⟨[], rfl⟩
  | cons c rest ih =>
    by_cases hc : c = '/'
    · exact ⟨c :: rest, by simp [takeUntilSlash, hc]⟩
    · obtain ⟨t, ht⟩ := ih
      exact ⟨t, by simp [takeUntilSlash, hc, ht]⟩

theorem nameChars_suffix (p : String) : ∃ t, t ++ nameChars p = p.toList := by
  obtain ⟨t, ht⟩ := takeUntilSlash_eq_append p.toList.reverse
  refine ⟨t.reverse, ?_⟩
  have h2 := congrArg List.reverse ht
  simpa [nameChars] using h2

theorem hasSub_append (t needle : List Char) : hasSub (t ++ needle) needle = true := by
  induction t with
  | nil =>
    cases needle with
    | nil => rfl
    | cons c cs =>
      simp only [List.nil_append, hasSub, Bool.or_eq_true]
      exact Or.inl ( List.isPrefixOf_iff_prefix.mpr (List.prefix_refl _))
  | cons a t' ih =>
    simp only [List.cons_append, hasSub, Bool.or_eq_true]
    exact Or.inr ih

theorem hasSub_of_suffix (l needle t : List Char) (h : t ++ needle = l) :
    hasSub l needle = true := by
  subst h; exact hasSub_append t needle

theorem toList_append (a b : String) : (a ++ b).toList = a.toList ++ b.toList :=
  String.data_append a b

theorem toList_joinPath_suffix (root p : String) :
    ∃ u, u ++ p.toList = (joinPath root p).toList := by
  unfold joinPath
  by_cases hr : root = "."
  · exact ⟨[], by simp [hr]⟩
  · exact ⟨(root ++ "/").toList, by simp [hr, toList_append]⟩

/-! ### State characterization of the two re-encode procedures -/

theorem reencode_success_state (fs : FS) (input : String) (orig nb : Bytes)
    (hin : fsGet fs input = some orig)
    (hti : tempPath input ≠ input) (hbi : backupPath input ≠ input)
    (htb : tempPath input ≠ backupPath input) :
    (reencode_ogg fs input true ⟨0, some nb⟩ noFaults).2 = true ∧
    ∀ q, fsGet (reencode_ogg fs input true ⟨0, some nb⟩ noFaults).1 q =
      if input = q then some nb
      else if backupPath input = q then some orig
      else if tempPath input = q then none
      else fsGet fs q := by
  have hit : input ≠ tempPath input := Ne.symm hti
  have hib : input ≠ backupPath input := Ne.symm hbi
  have hbt : backupPath input ≠ tempPath input := Ne.symm htb
  constructor
  · cases hb : fsGet fs (backupPath input) <;>
      simp [reencode_ogg, fsExists, hin, noFaults, fsGet_fsSet, fsGet_fsDel, hb,
        hti, hit, hbi, hib, htb, hbt]
  · intro q
    by_cases h1 : input = q
    · subst h1
      cases hb : fsGet fs (backupPath input) <;>
        simp [reencode_ogg, fsExists, hin, noFaults, fsGet_fsSet, fsGet_fsDel, hb,
          hti, hit, hbi, hib, htb, hbt]
    · by_cases h2 : backupPath input = q
      · subst h2
        cases hb : fsGet fs (backupPath input) <;>
          simp [reencode_ogg, fsExists, hin, noFaults, fsGet_fsSet, fsGet_fsDel, hb,
            hti, hit, hbi, hib, htb, hbt, h1]
      · by_cases h3 : tempPath input = q
        · subst h3
          cases hb : fsGet fs (backupPath input) <;>
            simp [reencode_ogg, fsExists, hin, noFaults, fsGet_fsSet, fsGet_fsDel, hb,
              hti, hit, hbi, hib, htb, hbt, h1, h2]
        · cases hb : fsGet fs (backupPath input) <;>
            simp [reencode_ogg, fsExists, hin, noFaults, fsGet_fsSet, fsGet_fsDel, hb,
              hti, hit, hbi, hib, htb, hbt, h1, h2, h3]

theorem reencode_nonzero_exit (fs : FS) (input : String) (backup : Bool)
    (run : FfmpegRun) (flt : Faults) (orig : Bytes)
    (hin : fsGet fs input = some orig) (hrc : run.returncode ≠ 0) :
    (reencode_ogg fs input backup run flt).2 = false ∧
    fsGet (reencode_ogg fs input backup run flt).1 (tempPath input) = none ∧
    ∀ q, q ≠ tempPath input →
      fsGet (reencode_ogg fs input backup run flt).1 q = fsGet fs q := by
  obtain ⟨rc, out⟩ := run
  refine ⟨?_, ?_, ?_⟩ <;>
    cases out <;>
    simp_all [reencode_ogg, fsExists, fsGet_fsSet, fsGet_unlinkIfExists] <;>
    intro q hq <;> simp [fsGet_fsSet, fsGet_unlinkIfExists, Ne.symm hq]

/-- In the one-stage variant a zero-exit ffmpeg run that produced no output
file is only detected when `temp_path.rename` raises: a failure is recorded
and no temporary remains, but by then the original has been unlinked — the
canonical path is left absent, its bytes surviving only in the freshly
written backup. -/
theorem reencode_zero_exit_no_output (fs : FS) (input : String) (orig : Bytes)
    (hin : fsGet fs input = some orig)
    (htmp : fsGet fs (tempPath input) = none)
    (hti : tempPath input ≠ input) (hbi : backupPath input ≠ input)
    (htb : tempPath input ≠ backupPath input) :
    (reencode_ogg fs input true ⟨0, none⟩ noFaults).2 = false ∧
    fsGet (reencode_ogg fs input true ⟨0, none⟩ noFaults).1 input = none ∧
    fsGet (reencode_ogg fs input true ⟨0, none⟩ noFaults).1 (backupPath input) =
      some orig ∧
    fsGet (reencode_ogg fs input true ⟨0, none⟩ noFaults).1 (tempPath input) = none := by
  have hit : input ≠ tempPath input := Ne.symm hti
  have hib : input ≠ backupPath input := Ne.symm hbi
  have hbt : backupPath input ≠ tempPath input := Ne.symm htb
  cases hb : fsGet fs (backupPath input) <;>
    refine ⟨?_, ?_, ?_, ?_⟩ <;>
    simp [reencode_ogg, cleanupFail, fsExists, hin, htmp, noFaults, fsGet_fsSet,
      fsGet_fsDel, fsGet_unlinkIfExists, hb, hti, hit, hbi, hib, htb, hbt]

theorem reencode_xray_no_output (fs : FS) (input : String) (backup : Bool)
    (run : XrayRun) (h : run.wavOut = none ∨ run.oggOut = none) :
    reencode_ogg_xray fs input backup run = (fs, false) := by
  obtain ⟨e1, wav, e2, ogg, bf, rc⟩ := run
  cases wav <;> cases ogg <;> simp_all [reencode_ogg_xray]

theorem reencode_xray_success_state (fs : FS) (input : String) (orig w nb : Bytes)
    (e1 e2 : Int) (bf : Bool)
    (hin : fsGet fs input = some orig) (hbi : backupPath input ≠ input) :
    (reencode_ogg_xray fs input true ⟨e1, some w, e2, some nb, bf, CopyOutcome.ok⟩).2 = true ∧
    ∀ q, fsGet (reencode_ogg_xray fs input true ⟨e1, some w, e2, some nb, bf, CopyOutcome.ok⟩).1 q =
      if input = q then some nb
      else if backupPath input = q ∧ fsGet fs (backupPath input) = none ∧ bf = false then
        some orig
      else fsGet fs q := by
  have hib : input ≠ backupPath input := Ne.symm hbi
  constructor
  · cases hb : fsGet fs (backupPath input) <;> cases bf <;>
      simp [reencode_ogg_xray, fsExists, hin, hb]
  · intro q
    by_cases h1 : input = q
    · subst h1
      cases hb : fsGet fs (backupPath input) <;> cases bf <;>
        simp [reencode_ogg_xray, fsExists, hin, hb, hbi, hib, fsGet_fsSet]
    · by_cases h2 : backupPath input = q
      · subst h2
        cases hb : fsGet fs (backupPath input) <;> cases bf <;>
          simp [reencode_ogg_xray, fsExists, hin, hb, hbi, hib, fsGet_fsSet, h1]
      · cases hb : fsGet fs (backupPath input) <;> cases bf <;>
          simp [reencode_ogg_xray, fsExists, hin, hb, hbi, hib, fsGet_fsSet, h1, h2]

theorem reencode_files_canonical_state (fs : FS) (input : String) (orig : Bytes)
    (backup : Bool) (run : FfmpegRun) (flt : Faults)
    (hin : fsGet fs input = some orig)
    (htmp : fsGet fs (tempPath input) = none)
    (hti : tempPath input ≠ input) (hbi : backupPath input ≠ input)
    (htb : tempPath input ≠ backupPath input) :
    (fsGet (reencode_ogg fs input backup run flt).1 input = some orig ∨
     fsGet (reencode_ogg fs input backup run flt).1 input = run.output ∨
     fsGet (reencode_ogg fs input backup run flt).1 input = none) ∧
    (flt.inputUnlink = true → fsGet (reencode_ogg fs input backup run flt).1 input = some orig) ∧
    ((reencode_ogg fs input backup run flt).2 = true →
      fsGet (reencode_ogg fs input backup run flt).1 input = run.output) := by
  have hit : input ≠ tempPath input := Ne.symm hti
  have hib : input ≠ backupPath input := Ne.symm hbi
  have hbt : backupPath input ≠ tempPath input := Ne.symm htb
  obtain ⟨f1, f2, f3, f4⟩ := flt
  obtain ⟨rc, out⟩ := run
  cases backup <;> cases f1 <;> cases f2 <;> cases f3 <;> cases f4 <;>
    cases out <;> by_cases hrc : rc = 0 <;>
    cases hbex : fsGet fs (backupPath input) <;>
    simp_all [reencode_ogg, fsExists, cleanupFail, fsGet_fsSet, fsGet_fsDel,
      fsGet_unlinkIfExists]

theorem reencode_xray_canonical_state (fs : FS) (input : String)
    (backup : Bool) (run : XrayRun) (hbi : backupPath input ≠ input) :
    fsGet (reencode_ogg_xray fs input backup run).1 input = fsGet fs input ∨
    ((reencode_ogg_xray fs input backup run).2 = true ∧
      fsGet (reencode_ogg_xray fs input backup run).1 input = run.oggOut) ∨
    ((reencode_ogg_xray fs input backup run).2 = false ∧
      ∃ k b, run.oggOut = some b ∧ run.replaceCopy = CopyOutcome.failAfter k ∧
        fsGet (reencode_ogg_xray fs input backup run).1 input = some (List.take k b)) := by
  have hib : input ≠ backupPath input := Ne.symm hbi
  obtain ⟨e1, wav, e2, ogg, bf, rc⟩ := run
  cases wav <;> cases ogg <;> cases bf <;> cases rc <;> cases backup <;>
    cases hex : fsExists fs input <;>
    cases hbex : fsGet fs (backupPath input) <;>
    simp_all [reencode_ogg_xray, fsExists, fsGet_fsSet]

/-! ### The per-file loops -/

theorem processLoopFiles_counts (fs : FS) (files : List String)
    (oracle : String → FfmpegRun) (flt : String → Faults) :
    (processLoopFiles fs files oracle flt).2.1 +
      (processLoopFiles fs files oracle flt).2.2 = files.length := by
  induction files generalizing fs with
  | nil => rfl
  | cons f rest ih =>
    rcases hr : reencode_ogg fs f true (oracle f) (flt f) with ⟨fs1, ok⟩
    have h2 := ih fs1
    cases ok <;> simp [processLoopFiles, hr] <;> omega

theorem processLoopXray_counts (fs : FS) (files : List String)
    (oracle : String → XrayRun) :
    (processLoopXray fs files oracle).2.1 +
      (processLoopXray fs files oracle).2.2 = files.length := by
  induction files generalizing fs with
  | nil => rfl
  | cons f rest ih =>
    rcases hr : reencode_ogg_xray fs f true (oracle f) with ⟨fs1, ok⟩
    have h2 := ih fs1
    cases ok <;> simp [processLoopXray, hr] <;> omega

/-! ### Claims -/

/-- **C1** counterexample: with the external tools available and the target
directory missing, both scripts fall off the end of `main` and exit with
code `0`, not `1` as the claim states. -/
theorem c1_counterexample :
    (main_files true false [("a.ogg", [1])] ["a.ogg"] false
      (fun _ => ⟨0, some [2]⟩) (fun _ => noFaults)).2 = 0 ∧
    (main_xray true true false [("a.ogg", [1])] "." ["a.ogg"] false
      (fun _ => ⟨0, some [5], 0, some [9], false, CopyOutcome.ok⟩)).2 = 0 :=
  ⟨rfl, rfl⟩

/-- **C1** (amended): the process exits with code `1` exactly when a required
external tool is unavailable; in every other case — including a missing
target directory, which merely prints an error and processes nothing — it
exits with code `0`, even if individual files failed. -/
theorem c1_exit_codes_amended (ff hf ho d : Bool) (fs fs2 : FS) (root : String)
    (listing : List String) (r : Bool) (oracle : String → FfmpegRun)
    (flt : String → Faults) (oracle2 : String → XrayRun) :
    (main_files ff d fs listing r oracle flt).2 = (if ff = true then 0 else 1) ∧
    (main_xray hf ho d fs2 root listing r oracle2).2 =
      (if hf = true ∧ ho = true then 0 else 1) := by
  constructor
  · cases ff <;> simp [main_files]
  · cases hf <;> cases ho <;> simp [main_xray]

/-- **C2** counterexample, one per variant.  Two-stage: the exit status of
the external tools is never read, so a run whose ffmpeg invocation reports
a non-zero exit status but still produces output files yields a per-file
`Success`, not `Failure(ExternalToolError)` as the claim states.
One-stage: a zero-exit run that produces no output file does record
`Failure`, but the original's bytes are not unchanged — the canonical path
is absent afterwards (the original was unlinked before the rename raised). -/
theorem c2_counterexample :
    ((1 : Int) ≠ 0 ∧
     (reencode_ogg_xray [("a.ogg", [1, 2, 3])] "a.ogg" true
       ⟨1, some [2], 0, some [9, 9], false, CopyOutcome.ok⟩).2 = true) ∧
    ((reencode_ogg [("c.ogg", [4])] "c.ogg" true ⟨0, none⟩ noFaults).2 = false ∧
     fsGet (reencode_ogg [("c.ogg", [4])] "c.ogg" true ⟨0, none⟩ noFaults).1
       "c.ogg" = none ∧
     fsGet [("c.ogg", [4])] "c.ogg" = some [4]) := by
  refine ⟨⟨by decide, by decide⟩, by decide, by decide, by decide⟩

/-- **C2** (amended): when the external transform fails as the variant
actually detects it — a non-zero exit status in the one-stage variant, or a
missing output file in the two-stage variant — the per-file result is
`Failure`, no temporary output remains on disk, and the original file's
bytes (indeed every other path) are unchanged.  The off-diagonal cases
deviate: the two-stage variant ignores exit statuses (non-zero exit with
outputs produced yields `Success`, see the counterexample), and the
one-stage variant, on a zero-exit run producing no output file, records
`Failure` and leaves no temporary, but destroys the original — the
canonical path is absent, its bytes kept only in the backup. -/
theorem c2_external_failure_no_mutation (fs fs2 fs3 : FS)
    (input input2 input3 : String)
    (backup b2 : Bool) (run : FfmpegRun) (flt : Faults) (orig orig3 : Bytes)
    (run2 : XrayRun)
    (hin : fsGet fs input = some orig) (hrc : run.returncode ≠ 0)
    (hout : run2.wavOut = none ∨ run2.oggOut = none)
    (hin3 : fsGet fs3 input3 = some orig3)
    (htmp3 : fsGet fs3 (tempPath input3) = none)
    (hti3 : tempPath input3 ≠ input3) (hbi3 : backupPath input3 ≠ input3)
    (htb3 : tempPath input3 ≠ backupPath input3) :
    ((reencode_ogg fs input backup run flt).2 = false ∧
     fsGet (reencode_ogg fs input backup run flt).1 (tempPath input) = none ∧
     ∀ q, q ≠ tempPath input →
       fsGet (reencode_ogg fs input backup run flt).1 q = fsGet fs q) ∧
    reencode_ogg_xray fs2 input2 b2 run2 = (fs2, false) ∧
    ((reencode_ogg fs3 input3 true ⟨0, none⟩ noFaults).2 = false ∧
     fsGet (reencode_ogg fs3 input3 true ⟨0, none⟩ noFaults).1 input3 = none ∧
     fsGet (reencode_ogg fs3 input3 true ⟨0, none⟩ noFaults).1 (backupPath input3) =
       some orig3 ∧
     fsGet (reencode_ogg fs3 input3 true ⟨0, none⟩ noFaults).1 (tempPath input3) =
       none) :=
  ⟨reencode_nonzero_exit fs input backup run flt orig hin hrc,
   reencode_xray_no_output fs2 input2 b2 run2 hout,
   reencode_zero_exit_no_output fs3 input3 orig3 hin3 htmp3 hti3 hbi3 htb3⟩

theorem c2_external_failure_no_mutation_witness :
    ((reencode_ogg [("a.ogg", [1])] "a.ogg" true ⟨1, some [7]⟩ noFaults).2 = false ∧
     fsGet (reencode_ogg [("a.ogg", [1])] "a.ogg" true ⟨1, some [7]⟩ noFaults).1
       (tempPath "a.ogg") = none ∧
     ∀ q, q ≠ tempPath "a.ogg" →
       fsGet (reencode_ogg [("a.ogg", [1])] "a.ogg" true ⟨1, some [7]⟩ noFaults).1 q =
         fsGet [("a.ogg", [1])] q) ∧
    reencode_ogg_xray [("b.ogg", [2])] "b.ogg" true ⟨0, none, 0, some [9], false, CopyOutcome.ok⟩ =
      ([("b.ogg", [2])], false) ∧
    ((reencode_ogg [("c.ogg", [4])] "c.ogg" true ⟨0, none⟩ noFaults).2 = false ∧
     fsGet (reencode_ogg [("c.ogg", [4])] "c.ogg" true ⟨0, none⟩ noFaults).1
       "c.ogg" = none ∧
     fsGet (reencode_ogg [("c.ogg", [4])] "c.ogg" true ⟨0, none⟩ noFaults).1
       (backupPath "c.ogg") = some [4] ∧
     fsGet (reencode_ogg [("c.ogg", [4])] "c.ogg" true ⟨0, none⟩ noFaults).1
       (tempPath "c.ogg") = none) :=
  c2_external_failure_no_mutation [("a.ogg", [1])] [("b.ogg", [2])] [("c.ogg", [4])]
    "a.ogg" "b.ogg" "c.ogg" true true ⟨1, some [7]⟩ noFaults [1] [4]
    ⟨0, none, 0, some [9], false, CopyOutcome.ok⟩
    (by decide) (by decide) (Or.inl rfl) (by decide) (by decide) (by decide)
    (by decide) (by decide)

/-- **C3**: per-file processing is a sequential fold over the discovered
Target Set, applying the transform to each entry exactly once; a failure
only increments the failure counter, so the reported Success and Failed
counts always sum to the number of files found, in both variants. -/
theorem c3_summary_counts (fs fs2 : FS) (listing : List String) (r : Bool)
    (root : String) (oracle : String → FfmpegRun) (flt : String → Faults)
    (oracle2 : String → XrayRun) :
    (processLoopFiles fs (discoverFiles listing r) oracle flt).2.1 +
      (processLoopFiles fs (discoverFiles listing r) oracle flt).2.2 =
      (discoverFiles listing r).length ∧
    (processLoopXray fs2 (discoverXray root listing r) oracle2).2.1 +
      (processLoopXray fs2 (discoverXray root listing r) oracle2).2.2 =
      (discoverXray root listing r).length :=
  ⟨processLoopFiles_counts fs (discoverFiles listing r) oracle flt,
   processLoopXray_counts fs2 (discoverXray root listing r) oracle2⟩

/-- **C9**: process-level errors abort before any mutation: when a required
tool is unavailable, or the target directory does not exist, both scripts
terminate (exit 1 for missing tools, 0 for a missing directory) with the
filesystem exactly as it was — no backup, no temporary file, no modified
original. -/
theorem c9_no_mutation_on_abort (d hf ho : Bool) (fs fs2 : FS) (root : String)
    (listing : List String) (r : Bool) (oracle : String → FfmpegRun)
    (flt : String → Faults) (oracle2 : String → XrayRun) :
    main_files false d fs listing r oracle flt = (fs, 1) ∧
    main_files true false fs listing r oracle flt = (fs, 0) ∧
    main_xray false ho d fs2 root listing r oracle2 = (fs2, 1) ∧
    main_xray hf false d fs2 root listing r oracle2 = (fs2, 1) ∧
    main_xray true true false fs2 root listing r oracle2 = (fs2, 0) := by
  refine ⟨by simp [main_files], by simp [main_files, process_directory], ?_, ?_, ?_⟩
  · simp [main_xray]
  · cases hf <;> simp [main_xray]
  · simp [main_xray, process_directory_xray]

/-- **C4** counterexample, one per variant.  One-stage: the replace step is
`unlink` then `rename`; when the rename raises after the unlink succeeded,
the handler also deletes the temporary, so the canonical path afterwards
holds neither the transformed file nor the original — the original file's
on-disk state is lost even though the replace step did not complete.
Two-stage: the replace step `shutil.copy2(temp_ogg, input_path)` truncates
the original at open; a copy that raises after writing 0 bytes leaves a
zero-byte file at the canonical path, exactly what the claim forbids. -/
theorem c4_counterexample :
    ((reencode_ogg [("a.ogg", [1])] "a.ogg" true ⟨0, some [7]⟩
       ⟨false, false, false, true⟩).2 = false ∧
     fsGet (reencode_ogg [("a.ogg", [1])] "a.ogg" true ⟨0, some [7]⟩
       ⟨false, false, false, true⟩).1 "a.ogg" = none ∧
     fsGet [("a.ogg", [1])] "a.ogg" = some [1]) ∧
    ((reencode_ogg_xray [("b.ogg", [1, 2, 3])] "b.ogg" true
       ⟨0, some [5], 0, some [9, 9], false, CopyOutcome.failAfter 0⟩).2 = false ∧
     fsGet (reencode_ogg_xray [("b.ogg", [1, 2, 3])] "b.ogg" true
       ⟨0, some [5], 0, some [9, 9], false, CopyOutcome.failAfter 0⟩).1 "b.ogg" =
       some [] ∧
     fsGet [("b.ogg", [1, 2, 3])] "b.ogg" = some [1, 2, 3]) := by
  refine ⟨⟨by decide, by decide, by decide⟩, by decide, by decide, by decide⟩

/-- **C4** (amended): in the one-stage variant the canonical path never
holds a truncated file — on every failure path it holds the original bytes,
the external tool's full output, or (when the remove succeeded but the
rename then failed) no file at all, and if the remove step itself did not
complete the original remains.  In the two-stage variant the replace copy
truncates in place, so the canonical path afterwards holds the original
bytes, the full output on `Success`, or — on a copy interrupted after `k`
bytes — the (possibly empty) prefix `take k` of the transformed output.  In
both variants `Success` means the canonical path holds exactly the tool's
full output. -/
theorem c4_replace_outcomes (fs fs2 : FS) (input input2 : String) (orig : Bytes)
    (backup b2 : Bool) (run : FfmpegRun) (flt : Faults) (run2 : XrayRun)
    (hin : fsGet fs input = some orig)
    (htmp : fsGet fs (tempPath input) = none)
    (hti : tempPath input ≠ input) (hbi : backupPath input ≠ input)
    (htb : tempPath input ≠ backupPath input)
    (hbi2 : backupPath input2 ≠ input2) :
    ((fsGet (reencode_ogg fs input backup run flt).1 input = some orig ∨
      fsGet (reencode_ogg fs input backup run flt).1 input = run.output ∨
      fsGet (reencode_ogg fs input backup run flt).1 input = none) ∧
     (flt.inputUnlink = true →
       fsGet (reencode_ogg fs input backup run flt).1 input = some orig) ∧
     ((reencode_ogg fs input backup run flt).2 = true →
       fsGet (reencode_ogg fs input backup run flt).1 input = run.output)) ∧
    (fsGet (reencode_ogg_xray fs2 input2 b2 run2).1 input2 = fsGet fs2 input2 ∨
     ((reencode_ogg_xray fs2 input2 b2 run2).2 = true ∧
      fsGet (reencode_ogg_xray fs2 input2 b2 run2).1 input2 = run2.oggOut) ∨
     ((reencode_ogg_xray fs2 input2 b2 run2).2 = false ∧
      ∃ k b, run2.oggOut = some b ∧ run2.replaceCopy = CopyOutcome.failAfter k ∧
        fsGet (reencode_ogg_xray fs2 input2 b2 run2).1 input2 =
          some (List.take k b))) :=
  ⟨reencode_files_canonical_state fs input orig backup run flt hin htmp hti hbi htb,
   reencode_xray_canonical_state fs2 input2 b2 run2 hbi2⟩

theorem c4_replace_outcomes_witness :
    ((fsGet (reencode_ogg [("a.ogg", [1])] "a.ogg" true ⟨0, some [7]⟩
        ⟨false, false, true, false⟩).1 "a.ogg" = some [1] ∨
      fsGet (reencode_ogg [("a.ogg", [1])] "a.ogg" true ⟨0, some [7]⟩
        ⟨false, false, true, false⟩).1 "a.ogg" = some [7] ∨
      fsGet (reencode_ogg [("a.ogg", [1])] "a.ogg" true ⟨0, some [7]⟩
        ⟨false, false, true, false⟩).1 "a.ogg" = none) ∧
     ((true : Bool) = true →
       fsGet (reencode_ogg [("a.ogg", [1])] "a.ogg" true ⟨0, some [7]⟩
         ⟨false, false, true, false⟩).1 "a.ogg" = some [1]) ∧
     ((reencode_ogg [("a.ogg", [1])] "a.ogg" true ⟨0, some [7]⟩
        ⟨false, false, true, false⟩).2 = true →
       fsGet (reencode_ogg [("a.ogg", [1])] "a.ogg" true ⟨0, some [7]⟩
         ⟨false, false, true, false⟩).1 "a.ogg" = some [7])) ∧
    (fsGet (reencode_ogg_xray [("b.ogg", [2])] "b.ogg" true
        ⟨0, some [5], 0, some [9], false, CopyOutcome.ok⟩).1 "b.ogg" = fsGet [("b.ogg", [2])] "b.ogg" ∨
     ((reencode_ogg_xray [("b.ogg", [2])] "b.ogg" true
        ⟨0, some [5], 0, some [9], false, CopyOutcome.ok⟩).2 = true ∧
      fsGet (reencode_ogg_xray [("b.ogg", [2])] "b.ogg" true
        ⟨0, some [5], 0, some [9], false, CopyOutcome.ok⟩).1 "b.ogg" = some [9]) ∨
     ((reencode_ogg_xray [("b.ogg", [2])] "b.ogg" true
        ⟨0, some [5], 0, some [9], false, CopyOutcome.ok⟩).2 = false ∧
      ∃ k b, (some [9] : Option Bytes) = some b ∧
        CopyOutcome.ok = CopyOutcome.failAfter k ∧
        fsGet (reencode_ogg_xray [("b.ogg", [2])] "b.ogg" true
          ⟨0, some [5], 0, some [9], false, CopyOutcome.ok⟩).1 "b.ogg" =
          some (List.take k b))) :=
  c4_replace_outcomes [("a.ogg", [1])] [("b.ogg", [2])] "a.ogg" "b.ogg" [1] true true
    ⟨0, some [7]⟩ ⟨false, false, true, false⟩ ⟨0, some [5], 0, some [9], false, CopyOutcome.ok⟩
    (by decide) (by decide) (by decide) (by decide) (by decide) (by decide)

/-- **C5**: after a fault-free successful transform with backup requested,
the canonical path holds the new transformed bytes and the sibling backup
path holds the pre-transform original bytes.  The no-existing-backup
hypothesis is needed only for the two-stage variant (which preserves an
existing backup); the one-stage variant refreshes the backup from the
original's current bytes in every run. -/
theorem c5_backup_written (fs fs2 : FS) (input input2 : String)
    (orig orig2 nb nb2 w : Bytes) (e1 e2 : Int)
    (hin : fsGet fs input = some orig)
    (hti : tempPath input ≠ input) (hbi : backupPath input ≠ input)
    (htb : tempPath input ≠ backupPath input)
    (hin2 : fsGet fs2 input2 = some orig2) (hbi2 : backupPath input2 ≠ input2)
    (hb2 : fsGet fs2 (backupPath input2) = none) :
    ((reencode_ogg fs input true ⟨0, some nb⟩ noFaults).2 = true ∧
     fsGet (reencode_ogg fs input true ⟨0, some nb⟩ noFaults).1 input = some nb ∧
     fsGet (reencode_ogg fs input true ⟨0, some nb⟩ noFaults).1 (backupPath input) =
       some orig) ∧
    ((reencode_ogg_xray fs2 input2 true ⟨e1, some w, e2, some nb2, false, CopyOutcome.ok⟩).2 = true ∧
     fsGet (reencode_ogg_xray fs2 input2 true ⟨e1, some w, e2, some nb2, false, CopyOutcome.ok⟩).1
       input2 = some nb2 ∧
     fsGet (reencode_ogg_xray fs2 input2 true ⟨e1, some w, e2, some nb2, false, CopyOutcome.ok⟩).1
       (backupPath input2) = some orig2) := by
  obtain ⟨hflag, hstate⟩ := reencode_success_state fs input orig nb hin hti hbi htb
  obtain ⟨hflag2, hstate2⟩ :=
    reencode_xray_success_state fs2 input2 orig2 w nb2 e1 e2 false hin2 hbi2
  refine ⟨⟨hflag, ?_, ?_⟩, hflag2, ?_, ?_⟩
  · rw [hstate input]; simp
  · rw [hstate (backupPath input)]; simp [Ne.symm hbi]
  · rw [hstate2 input2]; simp
  · rw [hstate2 (backupPath input2)]; simp [Ne.symm hbi2, hb2]

theorem c5_backup_written_witness :
    ((reencode_ogg [("a.ogg", [1])] "a.ogg" true ⟨0, some [2]⟩ noFaults).2 = true ∧
     fsGet (reencode_ogg [("a.ogg", [1])] "a.ogg" true ⟨0, some [2]⟩ noFaults).1
       "a.ogg" = some [2] ∧
     fsGet (reencode_ogg [("a.ogg", [1])] "a.ogg" true ⟨0, some [2]⟩ noFaults).1
       (backupPath "a.ogg") = some [1]) ∧
    ((reencode_ogg_xray [("b.ogg", [3])] "b.ogg" true
        ⟨0, some [9], 0, some [4], false, CopyOutcome.ok⟩).2 = true ∧
     fsGet (reencode_ogg_xray [("b.ogg", [3])] "b.ogg" true
        ⟨0, some [9], 0, some [4], false, CopyOutcome.ok⟩).1 "b.ogg" = some [4] ∧
     fsGet (reencode_ogg_xray [("b.ogg", [3])] "b.ogg" true
        ⟨0, some [9], 0, some [4], false, CopyOutcome.ok⟩).1 (backupPath "b.ogg") = some [3]) :=
  c5_backup_written [("a.ogg", [1])] [("b.ogg", [3])] "a.ogg" "b.ogg" [1] [3] [2] [4] [9]
    0 0 (by decide) (by decide) (by decide) (by decide) (by decide) (by decide) (by decide)

/-- **C10**: in the two-stage variant a failing backup copy is swallowed by
`except: pass`: the per-file result is still `Success` and the original is
still replaced with the transformed output, so `Success` does not guarantee
that a pre-transform backup exists on disk. -/
theorem c10_backup_failure_swallowed (fs : FS) (input : String) (orig w nb : Bytes)
    (e1 e2 : Int)
    (hin : fsGet fs input = some orig) (hbi : backupPath input ≠ input)
    (hb : fsGet fs (backupPath input) = none) :
    (reencode_ogg_xray fs input true ⟨e1, some w, e2, some nb, true, CopyOutcome.ok⟩).2 = true ∧
    fsGet (reencode_ogg_xray fs input true ⟨e1, some w, e2, some nb, true, CopyOutcome.ok⟩).1
      input = some nb ∧
    fsGet (reencode_ogg_xray fs input true ⟨e1, some w, e2, some nb, true, CopyOutcome.ok⟩).1
      (backupPath input) = none := by
  obtain ⟨hflag, hstate⟩ :=
    reencode_xray_success_state fs input orig w nb e1 e2 true hin hbi
  refine ⟨hflag, ?_, ?_⟩
  · rw [hstate input]; simp
  · rw [hstate (backupPath input)]; simp [Ne.symm hbi, hb]

theorem c10_backup_failure_swallowed_witness :
    (reencode_ogg_xray [("a.ogg", [1])] "a.ogg" true
      ⟨0, some [5], 0, some [9], true, CopyOutcome.ok⟩).2 = true ∧
    fsGet (reencode_ogg_xray [("a.ogg", [1])] "a.ogg" true
      ⟨0, some [5], 0, some [9], true, CopyOutcome.ok⟩).1 "a.ogg" = some [9] ∧
    fsGet (reencode_ogg_xray [("a.ogg", [1])] "a.ogg" true
      ⟨0, some [5], 0, some [9], true, CopyOutcome.ok⟩).1 (backupPath "a.ogg") = none :=
  c10_backup_failure_swallowed [("a.ogg", [1])] "a.ogg" [1] [5] [9] 0 0
    (by decide) (by decide) (by decide)

/-- **C6**: backup naming is idempotent: processing the same file twice in
succession (successful, fault-free runs) creates at most one new path — the
single sibling backup path — whichever refresh policy the variant follows;
every path present afterwards was either present before or is that backup
path. -/
theorem c6_backup_idempotent (fs fs2 : FS) (input input2 : String)
    (orig orig2 nb1 nb2 m1 m2 w1 w2 : Bytes) (e1 e2 e3 e4 : Int)
    (hin : fsGet fs input = some orig)
    (hti : tempPath input ≠ input) (hbi : backupPath input ≠ input)
    (htb : tempPath input ≠ backupPath input)
    (hin2 : fsGet fs2 input2 = some orig2) (hbi2 : backupPath input2 ≠ input2) :
    (∀ q, fsExists (reencode_ogg
        (reencode_ogg fs input true ⟨0, some nb1⟩ noFaults).1
        input true ⟨0, some nb2⟩ noFaults).1 q = true →
      fsExists fs q = true ∨ q = backupPath input) ∧
    (∀ q, fsExists (reencode_ogg_xray
        (reencode_ogg_xray fs2 input2 true ⟨e1, some w1, e2, some m1, false, CopyOutcome.ok⟩).1
        input2 true ⟨e3, some w2, e4, some m2, false, CopyOutcome.ok⟩).1 q = true →
      fsExists fs2 q = true ∨ q = backupPath input2) := by
  obtain ⟨_, hs1⟩ := reencode_success_state fs input orig nb1 hin hti hbi htb
  have hin1 : fsGet (reencode_ogg fs input true ⟨0, some nb1⟩ noFaults).1 input =
      some nb1 := by
    rw [hs1 input]; simp
  obtain ⟨_, hs2⟩ := reencode_success_state
    (reencode_ogg fs input true ⟨0, some nb1⟩ noFaults).1 input nb1 nb2 hin1 hti hbi htb
  obtain ⟨_, hsx1⟩ :=
    reencode_xray_success_state fs2 input2 orig2 w1 m1 e1 e2 false hin2 hbi2
  have hin2b : fsGet (reencode_ogg_xray fs2 input2 true
      ⟨e1, some w1, e2, some m1, false, CopyOutcome.ok⟩).1 input2 = some m1 := by
    rw [hsx1 input2]; simp
  obtain ⟨_, hsx2⟩ := reencode_xray_success_state
    (reencode_ogg_xray fs2 input2 true ⟨e1, some w1, e2, some m1, false, CopyOutcome.ok⟩).1
    input2 m1 w2 m2 e3 e4 false hin2b hbi2
  constructor
  · intro q hq
    by_cases h1 : input = q
    · subst h1; exact Or.inl (by simp [fsExists, hin])
    · by_cases h2 : backupPath input = q
      · exact Or.inr h2.symm
      · by_cases h3 : tempPath input = q
        · subst h3
          unfold fsExists at hq
          rw [hs2 (tempPath input), if_neg h1, if_neg h2] at hq
          simp at hq
        · left
          unfold fsExists at hq ⊢
          rw [hs2 q, if_neg h1, if_neg h2, if_neg h3, hs1 q, if_neg h1, if_neg h2,
            if_neg h3] at hq
          exact hq
  · intro q hq
    by_cases h1 : input2 = q
    · subst h1; exact Or.inl (by simp [fsExists, hin2])
    · by_cases h2 : backupPath input2 = q
      · exact Or.inr h2.symm
      · left
        unfold fsExists at hq ⊢
        rw [hsx2 q, if_neg h1, if_neg (fun hco => h2 hco.1),
          hsx1 q, if_neg h1, if_neg (fun hco => h2 hco.1)] at hq
        exact hq

theorem c6_backup_idempotent_witness :
    fsExists [("a.ogg", [1])] "a.ogg.bak" = true ∨ "a.ogg.bak" = backupPath "a.ogg" :=
  (c6_backup_idempotent [("a.ogg", [1])] [("b.ogg", [2])] "a.ogg" "b.ogg"
    [1] [2] [3] [4] [5] [6] [7] [8] 0 0 0 0
    (by decide) (by decide) (by decide) (by decide) (by decide) (by decide)).1
    "a.ogg.bak" (by decide)

/-- **C7** counterexample: the two-stage variant's discovery filter only
removes paths containing `.bak`; it has no temporary-marker filter, so a
file whose name contains `.tmp.` is collected into its Target Set,
contradicting the claim that discovery excludes any name containing the
temporary-file marker. -/
theorem c7_counterexample :
    hasSub (nameChars "a.tmp.ogg") (String.toList ".tmp.") = true ∧
    "a.tmp.ogg" ∈ discoverXray "." ["a.tmp.ogg"] false := by
  refine ⟨by decide, by decide⟩

/-- **C7** (amended): any file whose name ends with `.bak` (in particular
`name.ogg.bak`) is excluded from both variants' Target Sets; discovery
collects only paths whose final component matches `*.ogg`; the one-stage
variant additionally excludes names ending with `.bak` or containing
`.tmp.`, while the two-stage variant excludes any path containing `.bak`
anywhere but applies no temporary-marker filter. -/
theorem c7_discovery_exclusions (root : String) (listing : List String)
    (r : Bool) (p : String) :
    ((String.toList ".bak").isSuffixOf (nameChars p) = true →
      p ∉ discoverFiles listing r ∧ p ∉ discoverXray root listing r) ∧
    (p ∈ discoverFiles listing r →
      matchGlobOgg (nameChars p) = true ∧
      (String.toList ".bak").isSuffixOf (nameChars p) = false ∧
      hasSub (nameChars p) (String.toList ".tmp.") = false) ∧
    (p ∈ discoverXray root listing r →
      matchGlobOgg (nameChars p) = true ∧
      hasSub (joinPath root p).toList (String.toList ".bak") = false) := by
  have hglob : ∀ q, q ∈ globOgg listing r → matchGlobOgg (nameChars q) = true := by
    intro q hq
    cases r <;> simp [globOgg, List.mem_filter] at hq <;> tauto
  refine ⟨?_, ?_, ?_⟩
  · intro h
    constructor
    · intro hmem
      simp only [discoverFiles, filterFiles, List.mem_filter, Bool.and_eq_true,
        Bool.not_eq_true'] at hmem
      rw [hmem.2.1] at h
      exact Bool.false_ne_true h
    · intro hmem
      simp only [discoverXray, filterXray, List.mem_filter, Bool.not_eq_true'] at hmem
      obtain ⟨t, ht⟩ := List.isSuffixOf_iff_suffix.mp h
      obtain ⟨sPre, hs⟩ := nameChars_suffix p
      obtain ⟨u, hu⟩ := toList_joinPath_suffix root p
      have hcontra : hasSub (joinPath root p).toList (String.toList ".bak") = true := by
        apply hasSub_of_suffix _ _ (u ++ (sPre ++ t))
        rw [List.append_assoc, List.append_assoc, ht, hs, hu]
      rw [hmem.2] at hcontra
      exact Bool.false_ne_true hcontra
  · intro hmem
    simp only [discoverFiles, filterFiles, List.mem_filter, Bool.and_eq_true,
      Bool.not_eq_true'] at hmem
    exact ⟨hglob p hmem.1, hmem.2.1, hmem.2.2⟩
  · intro hmem
    simp only [discoverXray, filterXray, List.mem_filter, Bool.not_eq_true'] at hmem
    exact ⟨hglob p hmem.1, hmem.2⟩

theorem c7_discovery_exclusions_witness :
    ("x.ogg.bak" ∉ discoverFiles ["x.ogg.bak", "x.ogg"] false ∧
     "x.ogg.bak" ∉ discoverXray "." ["x.ogg.bak", "x.ogg"] false) ∧
    (matchGlobOgg (nameChars "x.ogg") = true ∧
     (String.toList ".bak").isSuffixOf (nameChars "x.ogg") = false ∧
     hasSub (nameChars "x.ogg") (String.toList ".tmp.") = false) :=
  ⟨(c7_discovery_exclusions "." ["x.ogg.bak", "x.ogg"] false "x.ogg.bak").1 (by decide),
   (c7_discovery_exclusions "." ["x.ogg.bak", "x.ogg"] false "x.ogg").2.1 (by decide)⟩

/-- **C8**: discovery respects the recursive flag: a matching file in a
nested subdirectory is in the Target Set exactly when recursive mode is on;
and on a directory containing exactly `a.ogg`, `b.ogg`, `c.wav`, a
non-recursive run finds exactly `{a.ogg, b.ogg}` (Found 2) and, with the
external tools succeeding, reports Success 2, Failed 0 in both variants. -/
theorem c8_nested_iff_recursive (root : String) (listing : List String) (p : String)
    (hmem : p ∈ listing) (hc : p.toList.contains '/' = true)
    (hm : matchGlobOgg (nameChars p) = true)
    (hb1 : (String.toList ".bak").isSuffixOf (nameChars p) = false)
    (ht1 : hasSub (nameChars p) (String.toList ".tmp.") = false)
    (hb2 : hasSub (joinPath root p).toList (String.toList ".bak") = false) :
    (p ∉ discoverFiles listing false ∧ p ∉ discoverXray root listing false) ∧
    (p ∈ discoverFiles listing true ∧ p ∈ discoverXray root listing true) ∧
    discoverFiles ["a.ogg", "b.ogg", "c.wav"] false = ["a.ogg", "b.ogg"] ∧
    (processLoopFiles [("a.ogg", [1]), ("b.ogg", [2])]
        (discoverFiles ["a.ogg", "b.ogg", "c.wav"] false)
        (fun _ => ⟨0, some [9]⟩) (fun _ => noFaults)).2 = (2, 0) ∧
    (processLoopXray [("a.ogg", [1]), ("b.ogg", [2])]
        (discoverXray "." ["a.ogg", "b.ogg", "c.wav"] false)
        (fun _ => ⟨0, some [5], 0, some [9], false, CopyOutcome.ok⟩)).2 = (2, 0) := by
  refine ⟨⟨?_, ?_⟩, ⟨?_, ?_⟩, by decide, by decide, by decide⟩
  · intro hin
    simp only [discoverFiles, filterFiles, List.mem_filter] at hin
    have hg := hin.1
    simp [globOgg, List.mem_filter] at hg
    exact hg.2.1 (by simpa using hc)
  · intro hin
    simp only [discoverXray, filterXray, List.mem_filter] at hin
    have hg := hin.1
    simp [globOgg, List.mem_filter] at hg
    exact hg.2.1 (by simpa using hc)
  · simp [discoverFiles, filterFiles, globOgg, List.mem_filter, hmem, hm]
    exact ⟨by simpa using hb1, by simpa using ht1⟩
  · simp [discoverXray, filterXray, globOgg, List.mem_filter, hmem, hm]
    simpa using hb2

theorem c8_nested_iff_recursive_witness :
    ("sub/a.ogg" ∉ discoverFiles ["sub/a.ogg"] false ∧
     "sub/a.ogg" ∉ discoverXray "." ["sub/a.ogg"] false) ∧
    ("sub/a.ogg" ∈ discoverFiles ["sub/a.ogg"] true ∧
     "sub/a.ogg" ∈ discoverXray "." ["sub/a.ogg"] true) ∧
    discoverFiles ["a.ogg", "b.ogg", "c.wav"] false = ["a.ogg", "b.ogg"] ∧
    (processLoopFiles [("a.ogg", [1]), ("b.ogg", [2])]
        (discoverFiles ["a.ogg", "b.ogg", "c.wav"] false)
        (fun _ => ⟨0, some [9]⟩) (fun _ => noFaults)).2 = (2, 0) ∧
    (processLoopXray [("a.ogg", [1]), ("b.ogg", [2])]
        (discoverXray "." ["a.ogg", "b.ogg", "c.wav"] false)
        (fun _ => ⟨0, some [5], 0, some [9], false, CopyOutcome.ok⟩)).2 = (2, 0) :=
  c8_nested_iff_recursive "." ["sub/a.ogg"] "sub/a.ogg" (by decide) (by decide)
    (by decide) (by decide) (by decide) (by decide)
